import Mathlib

/-!
Verification development for the report-parsing subsystem of the
`sarah-help` repository.  The four parsers from
`parse_structured_viral_summary.py`, `parse_species_annotation.py`,
`parse_pathogen_map.py` and `parse_amr_annotation.py` are embedded
shallowly: each Python function becomes a Lean function over explicit
state; Python exceptions that may escape a scope are modelled with
`Except`; Python `str` is Lean `String` and lists stay lists.

Modelling conventions:
* A file-open result is an `Option String`: `none` models an I/O failure
  on `open`, `some text` the file content.  A parser that wraps its body
  in `try/except` returns a plain list (the handler returns `[]`); a
  parser that lets exceptions escape returns `Except String _`, the
  error string naming the Python exception.
* Python `float` field values are never computed with; the record fields
  carry the accepted literal text, and `isPyFloat` models acceptance by
  `float(...)` (a rejected literal raises `ValueError`).
* Line iteration over a file and `text.split("\n")`/`splitlines()` are
  all modelled by `splitNl` (splitting on the newline character).
-/

/-! ## String helpers mirroring the Python primitives used by the code -/

/-- Python `str.strip()` (no argument): drop whitespace at both ends. -/
def pyStrip (s : String) : String :=
  String.mk (((s.toList.dropWhile Char.isWhitespace).reverse.dropWhile Char.isWhitespace).reverse)

/-- Python `str.lower()`. -/
def pyLower (s : String) : String :=
  String.mk (s.toList.map Char.toLower)

/-- Python `line.rstrip(":")`: drop every trailing colon. -/
def dropTrailingColons (s : String) : String :=
  String.mk ((s.toList.reverse.dropWhile (fun c => c == ':')).reverse)

/-- Python `text.strip(Char.quote)` used on taxonomy strings: drop every
leading and trailing double-quote character. -/
def stripQuoteChars (s : String) : String :=
  String.mk (((s.toList.dropWhile (fun c => c == '"')).reverse.dropWhile (fun c => c == '"')).reverse)

/-- Python `key.replace(" ", "_")` (character-wise replacement). -/
def spacesToUnderscores (s : String) : String :=
  String.mk (s.toList.map (fun c => if c == ' ' then '_' else c))

/-- Python `s.startswith(p)`. -/
def startsWithS (s p : String) : Bool :=
  p.toList.isPrefixOf s.toList

/-- Python `s.endswith(p)`. -/
def endsWithS (s p : String) : Bool :=
  p.toList.isSuffixOf s.toList

/-- Is `sub` a contiguous infix of the list? -/
def listInfix : List Char → List Char → Bool
  | sub, [] => sub.isEmpty
  | sub, c :: rest => sub.isPrefixOf (c :: rest) || listInfix sub rest

/-- Python `sub in s`. -/
def containsSub (s sub : String) : Bool :=
  listInfix sub.toList s.toList

/-- Python `s[n:]` (slicing by characters). -/
def dropS (s : String) (n : Nat) : String :=
  String.mk (s.toList.drop n)

/-- Python `line.split(sep, 1)` for a separator that occurs in the line:
the part before the first occurrence and the part after it. -/
def splitFirst (s : String) (sep : Char) : String × String :=
  (String.mk (s.toList.takeWhile (fun c => !(c == sep))),
   String.mk ((s.toList.dropWhile (fun c => !(c == sep))).drop 1))

/-- Split a character list at every occurrence of `c`
(Python `str.split` semantics: `[] ↦ [""]`, separators kept as gaps). -/
def splitCharList (c : Char) : List Char → List (List Char)
  | [] => [[]]
  | ch :: rest =>
    let r := splitCharList c rest
    if ch == c then [] :: r
    else
      match r with
      | g :: gs => (ch :: g) :: gs
      | [] => [[ch]]

/-- Python `text.split("\n")` (also used for per-line file iteration and
`splitlines()` on the newline-only inputs considered here). -/
def splitNl (s : String) : List String :=
  (splitCharList '\n' s.toList).map String.mk

/-- Split a string on `;` as Python `taxonomy.split(";")`. -/
def splitSemis (s : String) : List String :=
  (splitCharList ';' s.toList).map String.mk

/-- Value of a non-empty digit list, as Python `int` on those digits. -/
def digitsVal (ds : List Char) : Int :=
  ds.foldl (fun n c => 10 * n + ((c.toNat : Int) - 48)) 0

/-- Strip one leading sign character, if present. -/
def dropSign : List Char → List Char
  | '+' :: cs => cs
  | '-' :: cs => cs
  | cs => cs

/-- Python `int(s)`: optional surrounding whitespace, optional sign,
then at least one digit (numeric-literal underscores are not used by any
input considered here and are not modelled). `none` models `ValueError`. -/
def pyInt (s : String) : Option Int :=
  let cs := (pyStrip s).toList
  let sgn : Int := match cs with
    | '-' :: _ => -1
    | _ => 1
  let ds := dropSign cs
  if !ds.isEmpty && ds.all Char.isDigit then some (sgn * digitsVal ds) else none

/-- Exponent digits of a float literal: non-empty, all digits, nothing after. -/
def expDigits (cs : List Char) : Bool :=
  !cs.isEmpty && cs.all Char.isDigit

/-- Optional exponent part of a Python float literal. -/
def expOk : List Char → Bool
  | [] => true
  | 'e' :: cs => expDigits (dropSign cs)
  | 'E' :: cs => expDigits (dropSign cs)
  | _ => false

/-- Mantissa (with optional fraction and exponent) of a float literal. -/
def mantExp (cs : List Char) : Bool :=
  let d1 := cs.takeWhile Char.isDigit
  let r1 := cs.dropWhile Char.isDigit
  match r1 with
  | '.' :: r2 =>
    let d2 := r2.takeWhile Char.isDigit
    let r3 := r2.dropWhile Char.isDigit
    (!d1.isEmpty || !d2.isEmpty) && expOk r3
  | _ => !d1.isEmpty && expOk r1

/-- Python `float(s)` acceptance: surrounding whitespace, optional sign,
then a decimal literal or `inf`/`infinity`/`nan` (case-insensitive).
`false` models `ValueError`. -/
def isPyFloat (s : String) : Bool :=
  let cs := dropSign (pyStrip s).toList
  let low := String.mk (cs.map Char.toLower)
  low == "inf" || low == "infinity" || low == "nan" || mantExp cs

/-- Python `\w` (ASCII view): letters, digits, underscore. -/
def isWordChar (c : Char) : Bool :=
  c.isAlphanum || c == '_'

/-! ## `parse_species_annotation.py` -/

/-- The `SpeciesAnnotation` dataclass.  The four float-typed fields carry
the literal text accepted by `float(...)` (see the header: no claim under
consideration computes with the float values).  The seven rank fields
default to the empty string exactly as in the dataclass. -/
structure SpeciesAnnotation where
  id : String
  taxonomy : String
  similarity_threshold : String
  similarity : String
  proportion_threshold : String
  proportion_genome_aligned : String
  warnings : String
  impression : String
  confidence_level : String
  kingdom : String := ""
  phylum : String := ""
  class_name : String := ""
  order : String := ""
  family : String := ""
  genus : String := ""
  species : String := ""

/-- One `elif` arm of `__post_init__`: apply a `;`-separated taxonomy
segment to the record according to its two-letter rank code. -/
def applyTaxPart (a : SpeciesAnnotation) (part : String) : SpeciesAnnotation :=
  if startsWithS part "d__" then { a with kingdom := dropS part 3 }
  else if startsWithS part "p__" then { a with phylum := dropS part 3 }
  else if startsWithS part "c__" then { a with class_name := dropS part 3 }
  else if startsWithS part "o__" then { a with order := dropS part 3 }
  else if startsWithS part "f__" then { a with family := dropS part 3 }
  else if startsWithS part "g__" then { a with genus := dropS part 3 }
  else if startsWithS part "s__" then { a with species := dropS part 3 }
  else a

/-- `SpeciesAnnotation.__post_init__`: when the taxonomy string is
non-empty and starts with a quoted `d__` prefix, strip the quotes, split
on `;` and fill the rank fields. -/
def postInit (a : SpeciesAnnotation) : SpeciesAnnotation :=
  if (a.taxonomy != "") && startsWithS a.taxonomy "\"d__" then
    (splitSemis (stripQuoteChars a.taxonomy)).foldl applyTaxPart a
  else a

/-- `SpeciesAnnotation.get_lowest_taxonomy`.  The final `else` arm of the
source reads `self.impression if ann.impression else "Unknown"` where
`ann` is an undefined name, so reaching it raises `NameError`; that
exception is the `Except.error` case. -/
def get_lowest_taxonomy (a : SpeciesAnnotation) : Except String (String × String) :=
  if a.species != "" then Except.ok ("Species", a.species)
  else if a.genus != "" then Except.ok ("Genus", a.genus)
  else if a.family != "" then Except.ok ("Family", a.family)
  else if a.order != "" then Except.ok ("Order", a.order)
  else if a.class_name != "" then Except.ok ("Class", a.class_name)
  else if a.phylum != "" then Except.ok ("Phylum", a.phylum)
  else if a.kingdom != "" then Except.ok ("Kingdom", a.kingdom)
  else Except.error "NameError: name ann is not defined"

/-- The `current_data` dictionary of `parse_species_annotation`: one
optional slot per recognized key (`none` = key absent). -/
structure SpData where
  taxonomy : Option String := none
  similarity_threshold : Option String := none
  similarity : Option String := none
  proportion_threshold : Option String := none
  proportion_genome_aligned : Option String := none
  warnings : Option String := none
  impression : Option String := none
  confidence_level : Option String := none

/-- Python truthiness of the `current_data` dict: empty iff no key set. -/
def dataEmpty (d : SpData) : Bool :=
  d.taxonomy.isNone && d.similarity_threshold.isNone && d.similarity.isNone &&
  d.proportion_threshold.isNone && d.proportion_genome_aligned.isNone &&
  d.warnings.isNone && d.impression.isNone && d.confidence_level.isNone

/-- Are all eight dataclass arguments present? -/
def dataComplete (d : SpData) : Bool :=
  d.taxonomy.isSome && d.similarity_threshold.isSome && d.similarity.isSome &&
  d.proportion_threshold.isSome && d.proportion_genome_aligned.isSome &&
  d.warnings.isSome && d.impression.isSome && d.confidence_level.isSome

/-- `SpeciesAnnotation(id=current_id, **current_data)`: the dataclass has
no defaults for these eight fields, so a missing key raises `TypeError`
(the `Except.error` case); otherwise the record is built and
`__post_init__` runs. -/
def mkSpeciesAnnotation (cid : String) (d : SpData) : Except String SpeciesAnnotation :=
  if dataComplete d then
    Except.ok (postInit
      { id := cid
        taxonomy := d.taxonomy.get!
        similarity_threshold := d.similarity_threshold.get!
        similarity := d.similarity.get!
        proportion_threshold := d.proportion_threshold.get!
        proportion_genome_aligned := d.proportion_genome_aligned.get!
        warnings := d.warnings.get!
        impression := d.impression.get!
        confidence_level := d.confidence_level.get! })
  else Except.error "TypeError: missing required argument"

/-- Loop state of `parse_species_annotation`. -/
structure SpState where
  annotations : List SpeciesAnnotation
  current_id : Option String
  current_data : SpData

/-- Python truthiness of `current_id` (`None` and `""` are falsy). -/
def truthyOpt : Option String → Bool
  | none => false
  | some s => s != ""

/-- Flush the block in progress: `if current_id and current_data:` append
the constructed record, swallowing a construction failure (the inner
`try/except` around the `SpeciesAnnotation(...)` call). -/
def flushAnns (st : SpState) : List SpeciesAnnotation :=
  match st.current_id with
  | none => st.annotations
  | some cid =>
    if (cid != "") && !(dataEmpty st.current_data) then
      match mkSpeciesAnnotation cid st.current_data with
      | Except.ok a => st.annotations ++ [a]
      | Except.error _ => st.annotations
    else st.annotations

/-- The `re.search(r"Confidence level[^:]*:\s*(\w+)", line, IGNORECASE)`
tail: after the matched phrase, skip non-colon characters, require a
colon, skip whitespace and take a non-empty word. -/
def clWord (r : List Char) : Option String :=
  let r2 := r.dropWhile (fun c => !(c == ':'))
  match r2 with
  | ':' :: r3 =>
    let w := (r3.dropWhile Char.isWhitespace).takeWhile isWordChar
    if w.isEmpty then none else some (String.mk w)
  | _ => none

/-- `re.search` scan for the confidence-level pattern: try every start
position of the (case-insensitive) phrase `confidence level`. -/
def clSearch : List Char → Option String
  | [] => none
  | c :: cs =>
    if "confidence level".toList.isPrefixOf ((c :: cs).map Char.toLower) then
      match clWord ((c :: cs).drop 16) with
      | some w => some w
      | none => clSearch cs
    else clSearch cs

/-- One iteration of the `for line in f` loop of
`parse_species_annotation` (source lines 85-132).  A `float(value)`
failure on a numeric key is a `ValueError` that no handler inside the
loop catches, hence `Except.error`. -/
def stepLine (st : SpState) (raw : String) : Except String SpState :=
  let line := pyStrip raw
  if line == "" then Except.ok st
  else if endsWithS line ":" then
    Except.ok ⟨flushAnns st, some (dropTrailingColons line), {}⟩
  else if line.toList.contains ':' && truthyOpt st.current_id then
    let kv := splitFirst line ':'
    let key := spacesToUnderscores (pyLower (pyStrip kv.fst))
    let value := pyStrip kv.snd
    if key == "taxonomy" then
      Except.ok ⟨st.annotations, st.current_id, { st.current_data with taxonomy := some value }⟩
    else if key == "similarity_threshold" then
      if isPyFloat value then
        Except.ok ⟨st.annotations, st.current_id, { st.current_data with similarity_threshold := some value }⟩
      else Except.error "ValueError: could not convert string to float"
    else if key == "similarity" then
      if isPyFloat value then
        Except.ok ⟨st.annotations, st.current_id, { st.current_data with similarity := some value }⟩
      else Except.error "ValueError: could not convert string to float"
    else if key == "proportion_threshold" then
      if isPyFloat value then
        Except.ok ⟨st.annotations, st.current_id, { st.current_data with proportion_threshold := some value }⟩
      else Except.error "ValueError: could not convert string to float"
    else if key == "proportion_of_genome_aligned" then
      if isPyFloat value then
        Except.ok ⟨st.annotations, st.current_id, { st.current_data with proportion_genome_aligned := some value }⟩
      else Except.error "ValueError: could not convert string to float"
    else if key == "warnings" then
      Except.ok ⟨st.annotations, st.current_id, { st.current_data with warnings := some value }⟩
    else if key == "impression" then
      Except.ok ⟨st.annotations, st.current_id, { st.current_data with impression := some value }⟩
    else if containsSub (pyLower line) "confidence level" then
      match clSearch line.toList with
      | some w =>
        Except.ok ⟨st.annotations, st.current_id, { st.current_data with confidence_level := some (pyLower w) }⟩
      | none => Except.ok st
    else Except.ok st
  else Except.ok st

/-- Run the scan loop, propagating the first uncaught exception. -/
def runLines (st : SpState) : List String → Except String SpState
  | [] => Except.ok st
  | l :: ls =>
    match stepLine st l with
    | Except.ok st2 => runLines st2 ls
    | Except.error e => Except.error e

/-- Initial state of the scan. -/
def initSp : SpState := ⟨[], none, {}⟩

/-- The body of `parse_species_annotation` applied to a list of lines:
run the loop, flush the last block, and let the outer
`except Exception` turn any escaped exception into `[]`. -/
def parse_species_lines (ls : List String) : List SpeciesAnnotation :=
  match runLines initSp ls with
  | Except.error _ => []
  | Except.ok st => flushAnns st

/-- `parse_species_annotation(file_path)`:  `none` models a file-open
failure, which the outer `except Exception` also turns into `[]`. -/
def parse_species_annotation : Option String → List SpeciesAnnotation
  | none => []
  | some text => parse_species_lines (splitNl text)

/-! ## `parse_structured_viral_summary.py` -/

/-- The `Genus` dataclass. -/
structure Genus where
  name : String
  count : Int

/-- The `Family` dataclass. -/
structure Family where
  name : String
  confidence : String
  count : Int
  genera : List Genus

/-- `re.match(r"(\d+) (\w+) \[Family\] — (\w+) confidence", line)`:
the adjacent token classes are disjoint, so greedy matching is maximal
munch; `re.match` allows arbitrary trailing text.  Returns
(count, name, confidence). -/
def parseFamilyLine (line : String) : Option (Int × String × String) :=
  let cs := line.toList
  let ds := cs.takeWhile Char.isDigit
  let r1 := cs.dropWhile Char.isDigit
  if ds.isEmpty then none else
  match r1 with
  | ' ' :: r2 =>
    let nm := r2.takeWhile isWordChar
    let r3 := r2.dropWhile isWordChar
    if nm.isEmpty then none else
    let pat := " [Family] — ".toList
    if pat.isPrefixOf r3 then
      let r4 := r3.drop pat.length
      let conf := r4.takeWhile isWordChar
      let r5 := r4.dropWhile isWordChar
      if conf.isEmpty then none
      else if " confidence".toList.isPrefixOf r5 then
        some (digitsVal ds, String.mk nm, String.mk conf)
      else none
    else none
  | _ => none

/-- `re.match(r"\s+(\d+) (\w+) \[Genus\]", line)`: required leading
whitespace, then count and name.  Returns (count, name). -/
def parseGenusLine (line : String) : Option (Int × String) :=
  let cs := line.toList
  let ws := cs.takeWhile Char.isWhitespace
  let r1 := cs.dropWhile Char.isWhitespace
  if ws.isEmpty then none else
  let ds := r1.takeWhile Char.isDigit
  let r2 := r1.dropWhile Char.isDigit
  if ds.isEmpty then none else
  match r2 with
  | ' ' :: r3 =>
    let nm := r3.takeWhile isWordChar
    let r4 := r3.dropWhile isWordChar
    if nm.isEmpty then none
    else if " [Genus]".toList.isPrefixOf r4 then some (digitsVal ds, String.mk nm)
    else none
  | _ => none

/-- Append a genus to the most recent family.  `current_family` is the
last element of `families` whenever it is not `None`, and a dataclass
instance is always truthy, so the genus branch fires iff the list is
non-empty. -/
def appendGenusLast : List Family → Genus → List Family
  | [], _ => []
  | [f], g => [{ f with genera := f.genera ++ [g] }]
  | f :: fs, g => f :: appendGenusLast fs g

/-- One iteration of the `parse_data` loop (source lines 39-55). -/
def viralStep (fams : List Family) (line : String) : List Family :=
  match parseFamilyLine line with
  | some (c, nm, conf) => fams ++ [⟨nm, conf, c, []⟩]
  | none =>
    match parseGenusLine line with
    | some (c, nm) => appendGenusLast fams ⟨nm, c⟩
    | none => fams

/-- `parse_data(data_string)`: strip the whole text, split on newlines,
scan. -/
def parse_data (text : String) : List Family :=
  List.foldl viralStep [] (splitNl (pyStrip text))

/-- `parse_viral_summary(file_path)`: the `open` call is not guarded by
any `try`, so a file-open failure propagates to the caller. -/
def parse_viral_summary : Option String → Except String (List Family)
  | none => Except.error "FileNotFoundError"
  | some text => Except.ok (parse_data text)

/-! ## `parse_pathogen_map.py` -/

/-- The `Strain` dataclass. -/
structure Strain where
  name : String
  reads : Int

/-- The `PathogenSpecies` dataclass. -/
structure PathogenSpecies where
  name : String
  total_reads : Int
  strains : List Strain

/-- The tail `\s+Total_Reads:\s+(\d+)` of the species pattern, matched at
the start of `cs`; returns the captured integer. -/
def tailTR (cs : List Char) : Option Int :=
  let ws := cs.takeWhile Char.isWhitespace
  let r1 := cs.dropWhile Char.isWhitespace
  if ws.isEmpty then none else
  if "Total_Reads:".toList.isPrefixOf r1 then
    let r2 := r1.drop 12
    let ws2 := r2.takeWhile Char.isWhitespace
    let r3 := r2.dropWhile Char.isWhitespace
    if ws2.isEmpty then none else
    let ds := r3.takeWhile Char.isDigit
    if ds.isEmpty then none else some (digitsVal ds)
  else none

/-- Greedy `(.+)` before the `Total_Reads` tail: the rightmost split with
a non-empty group wins. -/
def lastSplitTR : List Char → Option (List Char × Int)
  | [] => none
  | c :: cs =>
    match lastSplitTR cs with
    | some (g, n) => some (c :: g, n)
    | none =>
      match tailTR cs with
      | some n => some ([c], n)
      | none => none

/-- Backtracking over the greedy `\s+` after `Species:`: try consuming
`w` whitespace characters for `w` from the maximum down to 1. -/
def speciesGo (rest0 : List Char) : Nat → Option (List Char × Int)
  | 0 => none
  | Nat.succ w =>
    match lastSplitTR (rest0.drop (w + 1)) with
    | some r => some r
    | none => speciesGo rest0 w

/-- `re.match(r"Species:\s+(.+)\s+Total_Reads:\s+(\d+)", line)` followed
by `group(1).strip()` and `int(group(2))`. -/
def parseSpeciesLine (line : String) : Option (String × Int) :=
  let cs := line.toList
  if "Species:".toList.isPrefixOf cs then
    let rest0 := cs.drop 8
    match speciesGo rest0 (rest0.takeWhile Char.isWhitespace).length with
    | some (g, n) => some (pyStrip (String.mk g), n)
    | none => none
  else none

/-- The tail `\s+Reads:\s+(\d+)` of the strain pattern. -/
def tailRD (cs : List Char) : Option Int :=
  let ws := cs.takeWhile Char.isWhitespace
  let r1 := cs.dropWhile Char.isWhitespace
  if ws.isEmpty then none else
  if "Reads:".toList.isPrefixOf r1 then
    let r2 := r1.drop 6
    let ws2 := r2.takeWhile Char.isWhitespace
    let r3 := r2.dropWhile Char.isWhitespace
    if ws2.isEmpty then none else
    let ds := r3.takeWhile Char.isDigit
    if ds.isEmpty then none else some (digitsVal ds)
  else none

/-- Lazy `(.*?)` before the `Reads` tail: the leftmost split (possibly an
empty group) wins. -/
def firstSplitRD (cs : List Char) : Option (List Char × Int) :=
  match tailRD cs with
  | some n => some ([], n)
  | none =>
    match cs with
    | [] => none
    | c :: cs2 => (firstSplitRD cs2).map (fun p => (c :: p.fst, p.snd))

/-- Backtracking over the greedy `\s+` after `Strain:`. -/
def strainGo (rest0 : List Char) : Nat → Option (List Char × Int)
  | 0 => none
  | Nat.succ w =>
    match firstSplitRD (rest0.drop (w + 1)) with
    | some r => some r
    | none => strainGo rest0 w

/-- `re.match(r"\s*Strain:\s+(.*?)\s+Reads:\s+(\d+)", line)` followed by
`group(1).strip()` and `int(group(2))`. -/
def parseStrainLine (line : String) : Option (String × Int) :=
  let cs := line.toList.dropWhile Char.isWhitespace
  if "Strain:".toList.isPrefixOf cs then
    let rest0 := cs.drop 7
    match strainGo rest0 (rest0.takeWhile Char.isWhitespace).length with
    | some (g, n) => some (pyStrip (String.mk g), n)
    | none => none
  else none

/-- Append a strain to the most recent species (like `appendGenusLast`,
`current_species` is the last appended element when set). -/
def appendStrainLast : List PathogenSpecies → Strain → List PathogenSpecies
  | [], _ => []
  | [p], s => [{ p with strains := p.strains ++ [s] }]
  | p :: ps, s => p :: appendStrainLast ps s

/-- One iteration of the `parse_pathogen_map` loop (source lines 26-55);
the unrecognized-line arm only prints a diagnostic. -/
def pathStep (ps : List PathogenSpecies) (raw : String) : List PathogenSpecies :=
  let line := pyStrip raw
  if line == "" then ps
  else
    match parseSpeciesLine line with
    | some (nm, tr) => ps ++ [⟨nm, tr, []⟩]
    | none =>
      match parseStrainLine line with
      | some (nm, r) => appendStrainLast ps ⟨nm, r⟩
      | none => ps

/-- `parse_pathogen_map(file_path)`: the whole body sits in
`try/except Exception`, whose handler returns `[]`; in particular a
file-open failure (`none`) yields `[]`. -/
def parse_pathogen_map : Option String → List PathogenSpecies
  | none => []
  | some text => List.foldl pathStep [] (splitNl text)

/-! ## `parse_amr_annotation.py` -/

/-- The `ResistanceMechanism` dataclass. -/
structure ResistanceMechanism where
  name : String
  count : Int

/-- The `AMRAnnotation` (antibiotic class) dataclass. -/
structure AMRAnnotation where
  name : String
  count : Int
  mechanisms : List ResistanceMechanism

/-- `mech_text.rsplit("(", 1)`: split at the last `(`; `none` models the
`ValueError` when no parenthesis occurs. -/
def rsplitParen : List Char → Option (List Char × List Char)
  | [] => none
  | c :: rest =>
    match rsplitParen rest with
    | some (a, b) => some (c :: a, b)
    | none => if c == '(' then some ([], rest) else none

/-- `name_part, count_part = s.rsplit("(", 1)` then
`(name_part.strip(), int(count_part.rstrip(")")))`; `none` models the
caught `ValueError` of either step. -/
def parseNameCount (s : String) : Option (String × Int) :=
  match rsplitParen s.toList with
  | none => none
  | some (namePart, countPart) =>
    match pyInt (String.mk ((countPart.reverse.dropWhile (fun c => c == ')')).reverse)) with
    | none => none
    | some k => some (pyStrip (String.mk namePart), k)

/-- Classification of a line of the AMR report.  `dash` keeps both the
text after `"- "` (used when a current class exists) and the full line
(fallthrough: when no class is current the same line reaches the
antibiotic-class arm). -/
inductive AmrLine where
  | skip
  | marker (n : String)
  | dash (rest full : String)
  | plain (line : String)

/-- Per-line classification of `parse_amr_annotation` (strip; skip blank
and `[INFO]` lines; `### Bin:` marker; `- ` mechanism shape; otherwise a
candidate class line). -/
def classifyAmr (raw : String) : AmrLine :=
  let line := pyStrip raw
  if line == "" || startsWithS line "[INFO]" then AmrLine.skip
  else if startsWithS line "### Bin:" then AmrLine.marker (pyStrip (dropS line 8))
  else if startsWithS line "- " then AmrLine.dash (dropS line 2) line
  else AmrLine.plain line

/-- The bin name announced by a line, when it is a `### Bin:` marker. -/
def markerName (raw : String) : Option String :=
  match classifyAmr raw with
  | AmrLine.marker n => some n
  | _ => none

/-- Python dict assignment `bins[k] = v`: replace in place, else append
(insertion order preserved, keys unique). -/
def pySet (bins : List (String × List AMRAnnotation)) (k : String)
    (v : List AMRAnnotation) : List (String × List AMRAnnotation) :=
  match bins with
  | [] => [(k, v)]
  | (k2, v2) :: rest => if k2 == k then (k, v) :: rest else (k2, v2) :: pySet rest k v

/-- Python dict lookup `bins[k]` (as an `Option`). -/
def pyLookup (k : String) : List (String × List AMRAnnotation) → Option (List AMRAnnotation)
  | [] => none
  | (k2, v) :: rest => if k2 == k then some v else pyLookup k rest

/-- Mutate the value stored under key `k` (used for
`bins[current_bin].append(...)` and `bins[current_bin][-1]...`; the key
is always present when `current_bin` is set, so the no-op on a missing
key is unreachable). -/
def modifyAt (bins : List (String × List AMRAnnotation)) (k : String)
    (f : List AMRAnnotation → List AMRAnnotation) : List (String × List AMRAnnotation) :=
  match bins with
  | [] => []
  | (k2, v) :: rest => if k2 == k then (k2, f v) :: rest else (k2, v) :: modifyAt rest k f

/-- `bins[current_bin][-1].mechanisms.append(mechanism)`: attach a
mechanism to the last class of the list. -/
def appendMechLast (m : ResistanceMechanism) : List AMRAnnotation → List AMRAnnotation
  | [] => []
  | [a] => [⟨a.name, a.count, a.mechanisms ++ [m]⟩]
  | a :: rest => a :: appendMechLast m rest

/-- Loop state of `parse_amr_annotation`: the bins dict, the current bin
name and whether a current class exists (`current_class` is always the
last class appended to the current bin, so a flag suffices). -/
structure AmrState where
  bins : List (String × List AMRAnnotation)
  current_bin : Option String
  current_class : Bool

/-- One iteration of the `parse_amr_annotation` loop (source lines
35-73).  A `- ` line with a truthy current bin but no current class falls
through to the antibiotic-class arm and is parsed as a class, full line
included. -/
def amrStep (st : AmrState) (raw : String) : AmrState :=
  match classifyAmr raw with
  | AmrLine.skip => st
  | AmrLine.marker n => ⟨pySet st.bins n [], some n, false⟩
  | AmrLine.dash rest full =>
    match st.current_bin with
    | none => st
    | some b =>
      if b == "" then st
      else if st.current_class then
        match parseNameCount rest with
        | some (nm, k) =>
          ⟨modifyAt st.bins b (appendMechLast ⟨nm, k⟩), st.current_bin, st.current_class⟩
        | none => st
      else
        match parseNameCount full with
        | some (nm, k) => ⟨modifyAt st.bins b (fun v => v ++ [⟨nm, k, []⟩]), some b, true⟩
        | none => st
  | AmrLine.plain line =>
    match st.current_bin with
    | none => st
    | some b =>
      if b == "" then st
      else
        match parseNameCount line with
        | some (nm, k) => ⟨modifyAt st.bins b (fun v => v ++ [⟨nm, k, []⟩]), some b, true⟩
        | none => st

/-- The scan over all lines. -/
def amrScan (st : AmrState) (ls : List String) : AmrState :=
  List.foldl amrStep st ls

/-- Initial AMR state. -/
def initAmr : AmrState := ⟨[], none, false⟩

/-- The tail of `parse_amr_annotation`:
`anns = list(bins.values()); return anns[0]` — indexing an empty list
raises `IndexError`. -/
def parse_amr_lines (ls : List String) : Except String (List AMRAnnotation) :=
  match (amrScan initAmr ls).bins with
  | [] => Except.error "IndexError: list index out of range"
  | (_, v) :: _ => Except.ok v

/-- `parse_amr_annotation(file_path)`: the `open` call is not guarded by
any `try`, so a file-open failure propagates. -/
def parse_amr_annotation : Option String → Except String (List AMRAnnotation)
  | none => Except.error "FileNotFoundError"
  | some text => parse_amr_lines (splitNl text)

/-- The antibiotic classes collected by the scan inside one bin section,
following the per-line behaviour of the loop for a truthy current bin:
stops at the next marker, a `- ` line attaches to the last class when one
exists and otherwise falls through to the class arm. -/
def sectionClasses (acc : List AMRAnnotation) (c : Bool) : List String → List AMRAnnotation
  | [] => acc
  | raw :: ls =>
    match classifyAmr raw with
    | AmrLine.skip => sectionClasses acc c ls
    | AmrLine.marker _ => acc
    | AmrLine.dash rest full =>
      if c then
        match parseNameCount rest with
        | some (nm, k) => sectionClasses (appendMechLast ⟨nm, k⟩ acc) c ls
        | none => sectionClasses acc c ls
      else
        match parseNameCount full with
        | some (nm, k) => sectionClasses (acc ++ [⟨nm, k, []⟩]) true ls
        | none => sectionClasses acc c ls
    | AmrLine.plain line =>
      match parseNameCount line with
      | some (nm, k) => sectionClasses (acc ++ [⟨nm, k, []⟩]) true ls
      | none => sectionClasses acc c ls

/-- The record of the taxonomy round-trip example: taxonomy string with
the quoted `d__` prefix
`"d__Bacteria;p__Proteobacteria;c__Gammaproteobacteria;o__;f__;g__;s__"`. -/
def c8ann : SpeciesAnnotation :=
  postInit
    { id := "seq1"
      taxonomy := "\"d__Bacteria;p__Proteobacteria;c__Gammaproteobacteria;o__;f__;g__;s__\""
      similarity_threshold := "0.9"
      similarity := "0.95"
      proportion_threshold := "0.5"
      proportion_genome_aligned := "0.8"
      warnings := "none"
      impression := "present"
      confidence_level := "high" }

/-! ## Helper lemmas -/

theorem runLines_append (xs ys : List String) : ∀ st : SpState,
    runLines st (xs ++ ys) =
      match runLines st xs with
      | Except.ok st2 => runLines st2 ys
      | Except.error e => Except.error e := by
  induction xs with
  | nil => intro st; rfl
  | cons l ls ih =>
    intro st
    simp only [List.cons_append, runLines]
    cases stepLine st l with
    | ok st2 => exact ih st2
    | error e => rfl

theorem species_step_noid (a : List SpeciesAnnotation) (d : SpData) (raw : String)
    (h : endsWithS (pyStrip raw) ":" = false) :
    stepLine ⟨a, none, d⟩ raw = Except.ok ⟨a, none, d⟩ := by
  simp [stepLine, truthyOpt, h]

theorem species_run_noid (ls : List String)
    (h : ∀ l ∈ ls, endsWithS (pyStrip l) ":" = false) :
    ∀ (a : List SpeciesAnnotation) (d : SpData),
      runLines ⟨a, none, d⟩ ls = Except.ok ⟨a, none, d⟩ := by
  induction ls with
  | nil => intro a d; rfl
  | cons l ls ih =>
    intro a d
    have h1 : endsWithS (pyStrip l) ":" = false := h l (by simp)
    simp only [runLines, species_step_noid a d l h1]
    exact ih (fun x hx => h x (by simp [hx])) a d

theorem viral_step_nil (l : String) (h : parseFamilyLine l = none) :
    viralStep [] l = [] := by
  unfold viralStep
  rw [h]
  cases hg : parseGenusLine l with
  | none => rfl
  | some p => cases p with | mk c nm => rfl

theorem viral_fold_nil (ls : List String)
    (h : ∀ l ∈ ls, parseFamilyLine l = none) :
    List.foldl viralStep [] ls = [] := by
  induction ls with
  | nil => rfl
  | cons l ls ih =>
    have h1 := h l (by simp)
    simp only [List.foldl_cons, viral_step_nil l h1]
    exact ih (fun x hx => h x (by simp [hx]))

theorem path_step_nil (raw : String) (h : parseSpeciesLine (pyStrip raw) = none) :
    pathStep [] raw = [] := by
  unfold pathStep
  simp only [h]
  by_cases h0 : pyStrip raw == ""
  · simp [h0]
  · simp only [h0, if_false]
    cases hs : parseStrainLine (pyStrip raw) with
    | none => simp [hs]
    | some p => cases p with | mk nm r => simp [hs, appendStrainLast]

theorem path_fold_nil (ls : List String)
    (h : ∀ l ∈ ls, parseSpeciesLine (pyStrip l) = none) :
    List.foldl pathStep [] ls = [] := by
  induction ls with
  | nil => rfl
  | cons l ls ih =>
    have h1 := h l (by simp)
    simp only [List.foldl_cons, path_step_nil l h1]
    exact ih (fun x hx => h x (by simp [hx]))

theorem markerName_classify (raw n : String) (h : markerName raw = some n) :
    classifyAmr raw = AmrLine.marker n := by
  unfold markerName at h
  cases hc : classifyAmr raw with
  | skip => rw [hc] at h; simp at h
  | marker m => rw [hc] at h; simp at h; rw [h]
  | dash r f => rw [hc] at h; simp at h
  | plain p => rw [hc] at h; simp at h

theorem amr_step_init (raw : String) (h : markerName raw = none) :
    amrStep initAmr raw = initAmr := by
  cases hc : classifyAmr raw with
  | skip => simp [amrStep, hc]
  | marker n => unfold markerName at h; rw [hc] at h; exact absurd h (by simp)
  | dash r f => simp [amrStep, hc, initAmr]
  | plain p => simp [amrStep, hc, initAmr]

theorem amr_scan_init (ls : List String)
    (h : ∀ l ∈ ls, markerName l = none) :
    amrScan initAmr ls = initAmr := by
  induction ls with
  | nil => rfl
  | cons l ls ih =>
    have h1 := h l (by simp)
    show amrScan (amrStep initAmr l) ls = initAmr
    rw [amr_step_init l h1]
    exact ih (fun x hx => h x (by simp [hx]))

theorem pySet_cons_ne (k2 k : String) (v2 v : List AMRAnnotation)
    (rest : List (String × List AMRAnnotation)) (h : (k2 == k) = false) :
    pySet ((k2, v2) :: rest) k v = (k2, v2) :: pySet rest k v := by
  simp [pySet, h]

theorem modifyAt_cons_ne (k2 k : String) (v : List AMRAnnotation)
    (rest : List (String × List AMRAnnotation))
    (f : List AMRAnnotation → List AMRAnnotation) (h : (k2 == k) = false) :
    modifyAt ((k2, v) :: rest) k f = (k2, v) :: modifyAt rest k f := by
  simp [modifyAt, h]

theorem pySet_lookup (n : String) (v : List AMRAnnotation) :
    ∀ bins, pyLookup n (pySet bins n v) = some v := by
  intro bins
  induction bins with
  | nil => simp [pySet, pyLookup]
  | cons p rest ih =>
    cases p with
    | mk k2 v2 =>
      by_cases h : (k2 == n) = true
      · simp [pySet, h, pyLookup]
      · simp only [pySet, h, if_false, Bool.false_eq_true]
        simp [pyLookup, h, ih]

theorem amr_step_keep (n : String) (acc : List AMRAnnotation) (st : AmrState)
    (t : List (String × List AMRAnnotation)) (l : String)
    (hb : st.bins = (n, acc) :: t)
    (hcur : ∀ b, st.current_bin = some b → ¬(b = n))
    (hl : markerName l ≠ some n) :
    ∃ t2, (amrStep st l).bins = (n, acc) :: t2 ∧
      (∀ b, (amrStep st l).current_bin = some b → ¬(b = n)) := by
  cases hc : classifyAmr l with
  | skip =>
    have e : amrStep st l = st := by simp [amrStep, hc]
    rw [e]
    exact ⟨t, hb, hcur⟩
  | marker m =>
    have hm : ¬(m = n) := fun hmn => hl (by unfold markerName; rw [hc, hmn])
    have hne : (n == m) = false := by
      rw [beq_eq_false_iff_ne]
      exact fun he => hm he.symm
    have e : amrStep st l = ⟨pySet st.bins m [], some m, false⟩ := by simp [amrStep, hc]
    rw [e]
    refine ⟨pySet t m [], ?_, ?_⟩
    · simp only [hb]
      exact pySet_cons_ne n m acc [] t hne
    · intro b hbq
      simp only [Option.some.injEq] at hbq
      subst hbq
      exact hm
  | dash r f =>
    cases hcb : st.current_bin with
    | none =>
      have e : amrStep st l = st := by simp [amrStep, hc, hcb]
      rw [e]; exact ⟨t, hb, hcur⟩
    | some b =>
      have hbn : ¬(b = n) := hcur b hcb
      have hne : (n == b) = false := by
        rw [beq_eq_false_iff_ne]
        exact fun he => hbn he.symm
      by_cases hbe : (b == "") = true
      · have e : amrStep st l = st := by simp [amrStep, hc, hcb, hbe]
        rw [e]; exact ⟨t, hb, hcur⟩
      · cases hcc : st.current_class with
        | false =>
          cases hp : parseNameCount f with
          | none =>
            have e : amrStep st l = st := by simp [amrStep, hc, hcb, hbe, hcc, hp]
            rw [e]; exact ⟨t, hb, hcur⟩
          | some p =>
            cases p with
            | mk nm k =>
              have e : amrStep st l
                  = ⟨modifyAt st.bins b (fun v => v ++ [⟨nm, k, []⟩]), some b, true⟩ := by
                simp [amrStep, hc, hcb, hbe, hcc, hp]
              rw [e]
              refine ⟨modifyAt t b (fun v => v ++ [⟨nm, k, []⟩]), ?_, ?_⟩
              · simp only [hb]
                exact modifyAt_cons_ne n b acc t _ hne
              · intro b2 hbq
                simp only [Option.some.injEq] at hbq
                subst hbq
                exact hbn
        | true =>
          cases hp : parseNameCount r with
          | none =>
            have e : amrStep st l = st := by simp [amrStep, hc, hcb, hbe, hcc, hp]
            rw [e]; exact ⟨t, hb, hcur⟩
          | some p =>
            cases p with
            | mk nm k =>
              have e : amrStep st l
                  = ⟨modifyAt st.bins b (appendMechLast ⟨nm, k⟩), some b, true⟩ := by
                simp [amrStep, hc, hcb, hbe, hcc, hp]
              rw [e]
              refine ⟨modifyAt t b (appendMechLast ⟨nm, k⟩), ?_, ?_⟩
              · simp only [hb]
                exact modifyAt_cons_ne n b acc t _ hne
              · intro b2 hbq
                simp only [Option.some.injEq] at hbq
                subst hbq
                exact hbn
  | plain p =>
    cases hcb : st.current_bin with
    | none =>
      have e : amrStep st l = st := by simp [amrStep, hc, hcb]
      rw [e]; exact ⟨t, hb, hcur⟩
    | some b =>
      have hbn : ¬(b = n) := hcur b hcb
      have hne : (n == b) = false := by
        rw [beq_eq_false_iff_ne]
        exact fun he => hbn he.symm
      by_cases hbe : (b == "") = true
      · have e : amrStep st l = st := by simp [amrStep, hc, hcb, hbe]
        rw [e]; exact ⟨t, hb, hcur⟩
      · cases hp : parseNameCount p with
        | none =>
          have e : amrStep st l = st := by simp [amrStep, hc, hcb, hbe, hp]
          rw [e]; exact ⟨t, hb, hcur⟩
        | some q =>
          cases q with
          | mk nm k =>
            have e : amrStep st l
                = ⟨modifyAt st.bins b (fun v => v ++ [⟨nm, k, []⟩]), some b, true⟩ := by
              simp [amrStep, hc, hcb, hbe, hp]
            rw [e]
            refine ⟨modifyAt t b (fun v => v ++ [⟨nm, k, []⟩]), ?_, ?_⟩
            · simp only [hb]
              exact modifyAt_cons_ne n b acc t _ hne
            · intro b2 hbq
              simp only [Option.some.injEq] at hbq
              subst hbq
              exact hbn

theorem amr_freeze (n : String) (acc : List AMRAnnotation) :
    ∀ (ls : List String) (st : AmrState) (t : List (String × List AMRAnnotation)),
      st.bins = (n, acc) :: t →
      (∀ b, st.current_bin = some b → ¬(b = n)) →
      (∀ l ∈ ls, markerName l ≠ some n) →
      ∃ t2, (amrScan st ls).bins = (n, acc) :: t2 := by
  intro ls
  induction ls with
  | nil => intro st t hb hcur h; exact ⟨t, hb⟩
  | cons l ls ih =>
    intro st t hb hcur h
    obtain ⟨t2, hb2, hcur2⟩ := amr_step_keep n acc st t l hb hcur (h l (by simp))
    exact ih (amrStep st l) t2 hb2 hcur2 (fun x hx => h x (by simp [hx]))

theorem amr_section_sim (n : String) (hn : (n == "") = false) :
    ∀ (ls : List String) (acc : List AMRAnnotation) (c : Bool),
      (∀ l ∈ ls, markerName l ≠ some n) →
      ∃ t, (amrScan ⟨[(n, acc)], some n, c⟩ ls).bins
        = (n, sectionClasses acc c ls) :: t := by
  intro ls
  induction ls with
  | nil => intro acc c h; exact ⟨[], rfl⟩
  | cons l ls ih =>
    intro acc c h
    have hrest : ∀ x ∈ ls, markerName x ≠ some n := fun x hx => h x (by simp [hx])
    have hl : markerName l ≠ some n := h l (by simp)
    show ∃ t, (amrScan (amrStep ⟨[(n, acc)], some n, c⟩ l) ls).bins
      = (n, sectionClasses acc c (l :: ls)) :: t
    cases hc : classifyAmr l with
    | skip =>
      have e : amrStep ⟨[(n, acc)], some n, c⟩ l = ⟨[(n, acc)], some n, c⟩ := by
        simp [amrStep, hc]
      have e2 : sectionClasses acc c (l :: ls) = sectionClasses acc c ls := by
        simp only [sectionClasses, hc]
      rw [e, e2]
      exact ih acc c hrest
    | marker m =>
      have hm : ¬(m = n) := fun hmn => hl (by unfold markerName; rw [hc, hmn])
      have hne : (n == m) = false := by
        rw [beq_eq_false_iff_ne]
        exact fun he => hm he.symm
      have e : amrStep ⟨[(n, acc)], some n, c⟩ l = ⟨[(n, acc), (m, [])], some m, false⟩ := by
        simp [amrStep, hc, pySet, hne]
      have e2 : sectionClasses acc c (l :: ls) = acc := by
        simp only [sectionClasses, hc]
      rw [e, e2]
      exact amr_freeze n acc ls ⟨[(n, acc), (m, [])], some m, false⟩ [(m, [])] rfl
        (fun b hbq => by
          simp only [Option.some.injEq] at hbq
          subst hbq
          exact hm) hrest
    | dash r f =>
      cases c with
      | true =>
        cases hp : parseNameCount r with
        | none =>
          have e : amrStep ⟨[(n, acc)], some n, true⟩ l = ⟨[(n, acc)], some n, true⟩ := by
            simp [amrStep, hc, hn, hp]
          have e2 : sectionClasses acc true (l :: ls) = sectionClasses acc true ls := by
            simp only [sectionClasses, hc, if_true]
            rw [hp]
          rw [e, e2]
          exact ih acc true hrest
        | some p =>
          cases p with
          | mk nm k =>
            have e : amrStep ⟨[(n, acc)], some n, true⟩ l
                = ⟨[(n, appendMechLast ⟨nm, k⟩ acc)], some n, true⟩ := by
              simp [amrStep, hc, hn, hp, modifyAt]
            have e2 : sectionClasses acc true (l :: ls)
                = sectionClasses (appendMechLast ⟨nm, k⟩ acc) true ls := by
              simp only [sectionClasses, hc, if_true]
              rw [hp]
            rw [e, e2]
            exact ih _ true hrest
      | false =>
        cases hp : parseNameCount f with
        | none =>
          have e : amrStep ⟨[(n, acc)], some n, false⟩ l = ⟨[(n, acc)], some n, false⟩ := by
            simp [amrStep, hc, hn, hp]
          have e2 : sectionClasses acc false (l :: ls) = sectionClasses acc false ls := by
            simp only [sectionClasses, hc, Bool.false_eq_true, if_false]
            rw [hp]
          rw [e, e2]
          exact ih acc false hrest
        | some p =>
          cases p with
          | mk nm k =>
            have e : amrStep ⟨[(n, acc)], some n, false⟩ l
                = ⟨[(n, acc ++ [⟨nm, k, []⟩])], some n, true⟩ := by
              simp [amrStep, hc, hn, hp, modifyAt]
            have e2 : sectionClasses acc false (l :: ls)
                = sectionClasses (acc ++ [⟨nm, k, []⟩]) true ls := by
              simp only [sectionClasses, hc, Bool.false_eq_true, if_false]
              rw [hp]
            rw [e, e2]
            exact ih _ true hrest
    | plain p =>
      cases hp : parseNameCount p with
      | none =>
        have e : amrStep ⟨[(n, acc)], some n, c⟩ l = ⟨[(n, acc)], some n, c⟩ := by
          simp [amrStep, hc, hn, hp]
        have e2 : sectionClasses acc c (l :: ls) = sectionClasses acc c ls := by
          simp only [sectionClasses, hc]
          rw [hp]
        rw [e, e2]
        exact ih acc c hrest
      | some q =>
        cases q with
        | mk nm k =>
          have e : amrStep ⟨[(n, acc)], some n, c⟩ l
              = ⟨[(n, acc ++ [⟨nm, k, []⟩])], some n, true⟩ := by
            simp [amrStep, hc, hn, hp, modifyAt]
          have e2 : sectionClasses acc c (l :: ls)
              = sectionClasses (acc ++ [⟨nm, k, []⟩]) true ls := by
            simp only [sectionClasses, hc]
            rw [hp]
          rw [e, e2]
          exact ih _ true hrest

/-! ## Claims -/

/-- C1, counterexample: a well-formed block followed by a block whose
`Similarity` value fails `float(...)` yields the empty sequence — the
well-formed block does not appear — although the same well-formed block
alone parses to one record. -/
theorem C1_counterexample :
    parse_species_annotation (some "OrgA:\nTaxonomy: \"d__Bacteria;p__Firmicutes\"\nSimilarity threshold: 0.9\nSimilarity: 0.95\nProportion threshold: 0.5\nProportion of genome aligned: 0.8\nWarnings: none\nImpression: present\nConfidence level: high\nOrgB:\nTaxonomy: \"d__Bacteria\"\nSimilarity: notafloat") = []
    ∧ parse_species_annotation (some "OrgA:\nTaxonomy: \"d__Bacteria;p__Firmicutes\"\nSimilarity threshold: 0.9\nSimilarity: 0.95\nProportion threshold: 0.5\nProportion of genome aligned: 0.8\nWarnings: none\nImpression: present\nConfidence level: high")
      = [{ id := "OrgA", taxonomy := "\"d__Bacteria;p__Firmicutes\"",
           similarity_threshold := "0.9", similarity := "0.95",
           proportion_threshold := "0.5", proportion_genome_aligned := "0.8",
           warnings := "none", impression := "present", confidence_level := "high",
           kingdom := "Bacteria", phylum := "Firmicutes" }] :=
  ⟨rfl, rfl⟩

/-- C1 (corrected): a failure to parse a numeric field value as a float
is a `ValueError` raised outside the per-block handler; it propagates to
the parser boundary, whose handler returns the empty sequence.  So the
whole parse is aborted and no block — whatever precedes or follows —
appears in the output. -/
theorem C1_amended_theorem (pre post : List String) :
    parse_species_lines (pre ++ "BadOrg:" :: "Similarity: oops" :: post) = [] := by
  unfold parse_species_lines
  rw [runLines_append]
  cases h : runLines initSp pre with
  | error e => rfl
  | ok st =>
    have e1 : stepLine st "BadOrg:" = Except.ok ⟨flushAnns st, some "BadOrg", {}⟩ := rfl
    have e2 : stepLine ⟨flushAnns st, some "BadOrg", {}⟩ "Similarity: oops"
        = Except.error "ValueError: could not convert string to float" := rfl
    simp only [runLines, e1, e2]

/-- C2 (code bug): whenever all seven rank fields are empty,
`get_lowest_taxonomy` reaches the arm that reads the undefined name
`ann` and raises `NameError` — even when `impression` is non-empty — so
the documented `("Unknown", impression)` fallback is never produced. -/
theorem C2_theorem (a : SpeciesAnnotation)
    (h1 : a.species = "") (h2 : a.genus = "") (h3 : a.family = "")
    (h4 : a.order = "") (h5 : a.class_name = "") (h6 : a.phylum = "")
    (h7 : a.kingdom = "") :
    get_lowest_taxonomy a = Except.error "NameError: name ann is not defined" := by
  simp [get_lowest_taxonomy, h1, h2, h3, h4, h5, h6, h7]

/-- C2 witness: a concrete record with empty ranks and a non-empty
impression still raises. -/
theorem C2_witness :
    get_lowest_taxonomy
      { id := "seq9", taxonomy := "unclassified", similarity_threshold := "0.9",
        similarity := "0.5", proportion_threshold := "0.5",
        proportion_genome_aligned := "0.2", warnings := "", impression := "present",
        confidence_level := "low" }
      = Except.error "NameError: name ann is not defined" :=
  C2_theorem _ rfl rfl rfl rfl rfl rfl rfl

/-- C3, counterexample: on an input with no recognizable marker the AMR
parser raises `IndexError` (from `anns[0]`) instead of returning an empty
sequence. -/
theorem C3_counterexample :
    parse_amr_annotation (some "hello world")
      = Except.error "IndexError: list index out of range" := rfl

/-- C3 (corrected): an input with no recognizable marker yields the empty
sequence, returned normally, for the viral-summary, species-annotation
and pathogen-map parsers; the AMR parser instead raises `IndexError` when
no `### Bin:` marker occurs. -/
theorem C3_amended_theorem :
    (∀ t : String, (∀ l ∈ splitNl (pyStrip t), parseFamilyLine l = none) →
      parse_data t = [])
    ∧ (∀ t : String, (∀ l ∈ splitNl t, endsWithS (pyStrip l) ":" = false) →
      parse_species_annotation (some t) = [])
    ∧ (∀ t : String, (∀ l ∈ splitNl t, parseSpeciesLine (pyStrip l) = none) →
      parse_pathogen_map (some t) = [])
    ∧ (∀ t : String, (∀ l ∈ splitNl t, markerName l = none) →
      parse_amr_annotation (some t) = Except.error "IndexError: list index out of range") := by
  refine ⟨?_, ?_, ?_, ?_⟩
  · intro t h
    unfold parse_data
    exact viral_fold_nil _ h
  · intro t h
    show parse_species_lines (splitNl t) = []
    unfold parse_species_lines
    rw [show runLines initSp (splitNl t) = Except.ok ⟨[], none, {}⟩ from
      species_run_noid (splitNl t) h [] {}]
    rfl
  · intro t h
    unfold parse_pathogen_map
    exact path_fold_nil _ h
  · intro t h
    show parse_amr_lines (splitNl t) = _
    unfold parse_amr_lines
    rw [amr_scan_init (splitNl t) h]
    rfl

/-- C3 witness: the four amended conclusions at the marker-free input
`"plain text"`. -/
theorem C3_witness :
    parse_data "plain text" = []
    ∧ parse_species_annotation (some "plain text") = []
    ∧ parse_pathogen_map (some "plain text") = []
    ∧ parse_amr_annotation (some "plain text")
      = Except.error "IndexError: list index out of range" :=
  ⟨C3_amended_theorem.1 "plain text" (by decide),
   C3_amended_theorem.2.1 "plain text" (by decide),
   C3_amended_theorem.2.2.1 "plain text" (by decide),
   C3_amended_theorem.2.2.2 "plain text" (by decide)⟩

/-- C4, counterexample: inside a bin, a mechanism-shaped line occurring
before any antibiotic-class line is not dropped: it falls through to the
class arm and contributes an antibiotic-class record whose name keeps the
leading dash. -/
theorem C4_counterexample :
    parse_amr_annotation (some "### Bin: b1\n- efflux pump (12)")
      = Except.ok [⟨"- efflux pump", 12, []⟩] := rfl

/-- C4 (corrected): a genus line before any family line, a strain line
before any species line, and a mechanism line before any bin marker
contribute nothing (a prefix of such lines can be deleted without
changing the scan).  But inside a bin, a mechanism line occurring before
any class line is parsed as an antibiotic-class record instead of being
dropped. -/
theorem C4_amended_theorem :
    (∀ pre rest : List String, (∀ l ∈ pre, parseFamilyLine l = none) →
      List.foldl viralStep [] (pre ++ rest) = List.foldl viralStep [] rest)
    ∧ (∀ pre rest : List String, (∀ l ∈ pre, parseSpeciesLine (pyStrip l) = none) →
      List.foldl pathStep [] (pre ++ rest) = List.foldl pathStep [] rest)
    ∧ (∀ pre rest : List String, (∀ l ∈ pre, markerName l = none) →
      amrScan initAmr (pre ++ rest) = amrScan initAmr rest)
    ∧ parse_amr_annotation (some "### Bin: b2\n- beta-lactamase (7)")
      = Except.ok [⟨"- beta-lactamase", 7, []⟩] := by
  refine ⟨?_, ?_, ?_, rfl⟩
  · intro pre rest h
    rw [List.foldl_append, viral_fold_nil pre h]
  · intro pre rest h
    rw [List.foldl_append, path_fold_nil pre h]
  · intro pre rest h
    unfold amrScan
    rw [List.foldl_append]
    have h0 := amr_scan_init pre h
    unfold amrScan at h0
    rw [h0]

/-- C4 witness: deleting a leading orphan child line leaves each scan
unchanged. -/
theorem C4_witness :
    List.foldl viralStep []
        (["  5 Betacoronavirus [Genus]"] ++ ["12 Coronaviridae [Family] — High confidence"])
      = List.foldl viralStep [] ["12 Coronaviridae [Family] — High confidence"]
    ∧ List.foldl pathStep []
        (["Strain: K12 Reads: 400"] ++ ["Species: Ecoli Total_Reads: 1000"])
      = List.foldl pathStep [] ["Species: Ecoli Total_Reads: 1000"]
    ∧ amrScan initAmr (["- efflux pump (3)"] ++ ["### Bin: b9"])
      = amrScan initAmr ["### Bin: b9"] :=
  ⟨C4_amended_theorem.1 _ _ (by decide),
   C4_amended_theorem.2.1 _ _ (by decide),
   C4_amended_theorem.2.2.1 _ _ (by decide)⟩

/-- C5, counterexample: a file-open failure makes the viral-summary
parser propagate the exception rather than return an empty sequence. -/
theorem C5_counterexample :
    parse_viral_summary none = Except.error "FileNotFoundError" := rfl

/-- C5 (corrected): only the species-annotation and pathogen-map parsers
catch a file-open failure and return the empty sequence; the
viral-summary and AMR parsers have no handler around `open` and propagate
the exception. -/
theorem C5_amended_theorem :
    parse_species_annotation none = []
    ∧ parse_pathogen_map none = []
    ∧ parse_viral_summary none = Except.error "FileNotFoundError"
    ∧ parse_amr_annotation none = Except.error "FileNotFoundError" :=
  ⟨rfl, rfl, rfl, rfl⟩

/-- C6, counterexample: a block supplying only `Taxonomy` and
`Impression` produces no record at all — it is dropped, not filled with
defaults. -/
theorem C6_counterexample :
    parse_species_annotation (some "OrgC:\nTaxonomy: x\nImpression: present") = [] := rfl

/-- C6 (corrected): the dataclass has no defaults for the eight
constructor fields, so a block missing any recognized field fails
construction with `TypeError` and is skipped (with a diagnostic); the
scan continues and a later complete block still produces its record.
Only the seven derived rank fields have defaults. -/
theorem C6_amended_theorem :
    (∀ (cid : String) (d : SpData),
      (d.taxonomy = none ∨ d.similarity_threshold = none ∨ d.similarity = none ∨
       d.proportion_threshold = none ∨ d.proportion_genome_aligned = none ∨
       d.warnings = none ∨ d.impression = none ∨ d.confidence_level = none) →
      mkSpeciesAnnotation cid d = Except.error "TypeError: missing required argument")
    ∧ parse_species_annotation (some "OrgA:\nTaxonomy: x\nImpression: present\nOrgB:\nTaxonomy: \"d__Bacteria;p__Firmicutes\"\nSimilarity threshold: 0.9\nSimilarity: 0.95\nProportion threshold: 0.5\nProportion of genome aligned: 0.8\nWarnings: none\nImpression: present\nConfidence level: high")
      = [{ id := "OrgB", taxonomy := "\"d__Bacteria;p__Firmicutes\"",
           similarity_threshold := "0.9", similarity := "0.95",
           proportion_threshold := "0.5", proportion_genome_aligned := "0.8",
           warnings := "none", impression := "present", confidence_level := "high",
           kingdom := "Bacteria", phylum := "Firmicutes" }] := by
  constructor
  · intro cid d h
    have hdc : dataComplete d = false := by
      rcases h with h|h|h|h|h|h|h|h <;> simp [dataComplete, h]
    simp [ mkSpeciesAnnotation, hdc]
  · rfl

/-- C6 witness: a data dictionary holding only a taxonomy entry fails
construction. -/
theorem C6_witness :
    mkSpeciesAnnotation "OrgW" { taxonomy := some "x" }
      = Except.error "TypeError: missing required argument" :=
  C6_amended_theorem.1 "OrgW" { taxonomy := some "x" } (Or.inr (Or.inl rfl))

/-- C7, counterexample: when a later `### Bin:` marker repeats the first
bin name, the returned sequence is the classes of that later section —
`Macrolides (3)`, which appears under a subsequent marker — and the first
section's `Aminoglycosides (1)` is gone. -/
theorem C7_counterexample :
    parse_amr_annotation (some "### Bin: b1\nAminoglycosides (1)\n### Bin: b2\nTetracyclines (2)\n### Bin: b1\nMacrolides (3)")
      = Except.ok [⟨"Macrolides", 3, []⟩] := rfl

/-- C7 (corrected): when the text contains a bin marker and no later
marker repeats the first bin's (non-empty) name, the result is exactly
the classes collected in the first bin's section — first-seen order,
mechanisms attached — and classes under subsequent markers are excluded;
when the first name is repeated, the repeated marker resets that bin and
the result comes from the last such section instead.  The concrete
bin1/bin2 example yields one `Beta-lactams (20)` class with one
`efflux pump (12)` mechanism. -/
theorem C7_amended_theorem :
    (∀ (pre : List String) (m : String) (rest : List String) (n : String),
      (∀ l ∈ pre, markerName l = none) →
      markerName m = some n → n ≠ "" →
      (∀ l ∈ rest, markerName l ≠ some n) →
      parse_amr_lines (pre ++ m :: rest) = Except.ok (sectionClasses [] false rest))
    ∧ parse_amr_annotation (some "### Bin: bin1\nBeta-lactams (20)\n- efflux pump (12)\n### Bin: bin2\nTetracyclines (5)")
      = Except.ok [⟨"Beta-lactams", 20, [⟨"efflux pump", 12⟩]⟩] := by
  constructor
  · intro pre m rest n hpre hm hn hrest
    have hne : (n == "") = false := by
      rw [beq_eq_false_iff_ne]
      exact hn
    have hcm : classifyAmr m = AmrLine.marker n := markerName_classify m n hm
    have e0 : amrScan initAmr (pre ++ m :: rest) = amrScan (amrStep initAmr m) rest := by
      unfold amrScan
      rw [List.foldl_append]
      have h0 := amr_scan_init pre hpre
      unfold amrScan at h0
      rw [h0]
      rfl
    have e1 : amrStep initAmr m = ⟨[(n, [])], some n, false⟩ := by
      simp [amrStep, hcm, initAmr, pySet]
    obtain ⟨t, ht⟩ := amr_section_sim n hne rest [] false hrest
    unfold parse_amr_lines
    rw [e0, e1, ht]
  · rfl

/-- C7 witness: the amended statement at a concrete one-bin input. -/
theorem C7_witness :
    parse_amr_lines (["[INFO] run"] ++ "### Bin: binA" :: ["Ampicillin-class (4)"])
      = Except.ok (sectionClasses [] false ["Ampicillin-class (4)"]) :=
  C7_amended_theorem.1 ["[INFO] run"] "### Bin: binA" ["Ampicillin-class (4)"] "binA"
    (by decide) (by decide) (by decide) (by decide)

/-- C8 (confirmed): for the taxonomy string
`"d__Bacteria;p__Proteobacteria;c__Gammaproteobacteria;o__;f__;g__;s__"`
the decomposition sets kingdom, phylum and class and leaves order,
family, genus and species empty, and `get_lowest_taxonomy` returns
`("Class", "Gammaproteobacteria")`. -/
theorem C8_theorem :
    c8ann.kingdom = "Bacteria" ∧ c8ann.phylum = "Proteobacteria"
    ∧ c8ann.class_name = "Gammaproteobacteria" ∧ c8ann.order = ""
    ∧ c8ann.family = "" ∧ c8ann.genus = "" ∧ c8ann.species = ""
    ∧ get_lowest_taxonomy c8ann = Except.ok ("Class", "Gammaproteobacteria") :=
  ⟨rfl, rfl, rfl, rfl, rfl, rfl, rfl, rfl⟩

/-- C9 (confirmed): the family line
`12 Coronaviridae [Family] — High confidence` followed by the indented
genus line yields exactly one Family with one Genus. -/
theorem C9_theorem :
    parse_viral_summary (some "12 Coronaviridae [Family] — High confidence\n  5 Betacoronavirus [Genus]")
      = Except.ok [⟨"Coronaviridae", "High", 12, [⟨"Betacoronavirus", 5⟩]⟩] := rfl

/-- C10 (confirmed): processing any `### Bin:` marker line resets the
named bin's class list to the empty list (Python `bins[bin_name] = []`),
so classes collected under an earlier marker of the same name never
survive a repeated marker; concretely, `Amp (1)` before the repeated
`### Bin: b` marker is absent from the output. -/
theorem C10_theorem :
    (∀ (st : AmrState) (raw n : String), markerName raw = some n →
      pyLookup n ((amrStep st raw).bins) = some [])
    ∧ parse_amr_annotation (some "### Bin: b\nAmp (1)\n### Bin: b\nCef (2)")
      = Except.ok [⟨"Cef", 2, []⟩] := by
  constructor
  · intro st raw n h
    have hc := markerName_classify raw n h
    have e : amrStep st raw = ⟨pySet st.bins n [], some n, false⟩ := by
      simp [amrStep, hc]
    rw [e]
    exact pySet_lookup n [] st.bins
  · rfl

/-- C10 witness: the reset applied in a state that already holds a class
under the repeated name. -/
theorem C10_witness :
    pyLookup "b7"
      ((amrStep ⟨[("b7", [⟨"Amp", 1, []⟩])], some "b7", true⟩ "### Bin: b7").bins)
      = some [] :=
  C10_theorem.1 ⟨[("b7", [⟨"Amp", 1, []⟩])], some "b7", true⟩ "### Bin: b7" "b7" (by decide)
